import Mathlib

/-!
Verification of the reader-monitor component of the tomkp/smartcard
native addon (files src/reader_state_utils.h, src/reader_monitor.cpp,
src/pcsc_errors.h) against its natural-language specification.

The C++ code is shallowly embedded: DWORD flag words become Nat (with
bit operations on the low 32 bits made explicit where the C++ relies on
32-bit complement), std::unordered_map<std::string, ReaderInfo> becomes
an association list keyed by reader name, and each PC/SC primitive call
site receives the primitive's outputs as explicit parameters, since the
primitives themselves (SCardListReaders, SCardGetStatusChange, ...) are
external collaborators outside the repository.
-/

namespace Smartcard

/-! ## reader_state_utils.h -/

/-- Mirrors `enum class CardEvent` from src/reader_state_utils.h. -/
inductive CardEvent where
  | None
  | Inserted
  | Removed
deriving DecidableEq, Repr

/-- Mirrors `constexpr uint32_t PCSC_STATE_PRESENT = 0x00000010` from
src/reader_state_utils.h. -/
def PCSC_STATE_PRESENT : Nat := 0x00000010

/-- Mirrors `DetectCardStateChange` from src/reader_state_utils.h:
compare the presence bit of the old and new flag words and classify the
transition. -/
def DetectCardStateChange (oldState newState : Nat) : CardEvent :=
  let wasPresent : Bool := oldState &&& PCSC_STATE_PRESENT != 0
  let isPresent : Bool := newState &&& PCSC_STATE_PRESENT != 0
  if !wasPresent && isPresent then CardEvent.Inserted
  else if wasPresent && !isPresent then CardEvent.Removed
  else CardEvent.None

/-- The test `(x & PCSC_STATE_PRESENT) != 0` reads exactly bit 4 of the
flag word. -/
lemma land_present_eq_testBit (x : Nat) :
    (x &&& PCSC_STATE_PRESENT != 0) = x.testBit 4 := by
  have h : x &&& PCSC_STATE_PRESENT = (x.testBit 4).toNat * 2 ^ 4 := by
    have h16 : PCSC_STATE_PRESENT = 2 ^ 4 := by decide
    rw [h16, Nat.and_two_pow]
  cases hx : x.testBit 4 <;> simp [h, hx]

/-- C1: for every pair of flag words, `DetectCardStateChange` returns
Inserted iff the PRESENT bit (0x10, i.e. bit 4) is clear in the old word
and set in the new one, Removed iff it is set in the old word and clear
in the new one, and None otherwise, independent of every other bit. -/
theorem detectCardStateChange_presence_diff (oldState newState : Nat) :
    (DetectCardStateChange oldState newState = CardEvent.Inserted ↔
      (oldState.testBit 4 = false ∧ newState.testBit 4 = true)) ∧
    (DetectCardStateChange oldState newState = CardEvent.Removed ↔
      (oldState.testBit 4 = true ∧ newState.testBit 4 = false)) ∧
    (DetectCardStateChange oldState newState = CardEvent.None ↔
      oldState.testBit 4 = newState.testBit 4) := by
  have ho := land_present_eq_testBit oldState
  have hn := land_present_eq_testBit newState
  simp only [DetectCardStateChange, ho, hn]
  cases hob : oldState.testBit 4 <;> cases hnb : newState.testBit 4 <;>
    simp

/-! ## reader_monitor data model

Constants below are the standard winscard.h reader-state flag values
used by reader_monitor.cpp (the header is external to the repository).
-/

/-- The winscard.h SCARD_STATE_UNAWARE flag (0x0000). -/
def SCARD_STATE_UNAWARE : Nat := 0x0000

/-- The winscard.h SCARD_STATE_CHANGED flag (0x0002). -/
def SCARD_STATE_CHANGED : Nat := 0x0002

/-- The winscard.h SCARD_STATE_PRESENT flag (0x0020). -/
def SCARD_STATE_PRESENT : Nat := 0x0020

/-- The 32-bit operation `state & ~SCARD_STATE_CHANGED` used at every
store-write site of reader_monitor.cpp: the complement of 0x2 on a DWORD
is 0xFFFFFFFD. -/
def clearChangedBit (state : Nat) : Nat := state &&& 0xFFFFFFFD

/-- Mirrors `struct ReaderInfo` from src/reader_monitor.h: last known
flag word and ATR bytes for one reader. -/
structure ReaderInfo where
  lastState : Nat
  atr : List Nat
deriving DecidableEq, Repr

/-- The `readerStates_` map of ReaderMonitor, embedded as an association
list keyed by reader name. -/
abbrev ReaderStates := List (String × ReaderInfo)

/-- One event handed to `EmitEvent` in reader_monitor.cpp: event type,
reader name (or error description for error events), flag word, ATR. -/
structure Event where
  eventType : String
  readerName : String
  state : Nat
  atr : List Nat
deriving DecidableEq, Repr

/-- Result codes of the PC/SC primitives that reader_monitor.cpp
distinguishes; every code it does not compare against individually is
collapsed into `otherError`. -/
inductive ScardResult where
  | sSuccess
  | eCancelled
  | eTimeout
  | eNoReadersAvailable
  | eNoService
  | otherError (code : Nat)
deriving DecidableEq, Repr

/-- Mirrors `GetPCSCErrorString` from src/pcsc_errors.h, restricted to
the result codes the embedding distinguishes. -/
def GetPCSCErrorString : ScardResult → String
  | ScardResult.sSuccess => "Success"
  | ScardResult.eCancelled => "Operation cancelled"
  | ScardResult.eTimeout => "Operation timed out"
  | ScardResult.eNoReadersAvailable => "No readers available"
  | ScardResult.eNoService => "PC/SC service not running"
  | ScardResult.otherError _ => "Unknown PC/SC error"

/-- The `readerStates_.find(name)` lookup of the C++ map, on the
association-list embedding. -/
def lookupReader (store : ReaderStates) (name : String) : Option ReaderInfo :=
  (store.find? (fun p => p.1 == name)).map Prod.snd

/-- In-place update of the entry for `name` through the map iterator,
as done by `it->second.lastState = ...; it->second.atr = ...`. -/
def updateReader (store : ReaderStates) (name : String) (info : ReaderInfo) : ReaderStates :=
  store.map (fun p => if p.1 == name then (p.1, info) else p)

/-! ## UpdateReaderList -/

/-- Outputs of the three primitive calls made by
`ReaderMonitor::UpdateReaderList`: the buffer-size `SCardListReaders`
call (result code and reported length), the name-fetch `SCardListReaders`
call (result code and the parsed multi-string), and the bulk zero-timeout
`SCardGetStatusChange` call (result code and, per listed reader, the
reported event-state word and ATR bytes). -/
structure ListReadersOutcome where
  sizeResult : ScardResult
  readersLen : Nat
  dataResult : ScardResult
  names : List String
  stateResult : ScardResult
  freshStates : List (Nat × List Nat)
deriving DecidableEq, Repr

/-- Mirrors `ReaderMonitor::UpdateReaderList` from src/reader_monitor.cpp:
clear the store when the size query reports no readers or a zero length;
return with the store untouched when either SCardListReaders call fails
otherwise; else rebuild the store from the enumerated names, taking for
each name the freshly queried state (with CHANGED masked out) when the
bulk status query succeeded, and otherwise the previous entry for that
name (or an unaware entry when the name is new). -/
def UpdateReaderList (store : ReaderStates) (o : ListReadersOutcome) : ReaderStates :=
  if o.sizeResult = ScardResult.eNoReadersAvailable ∨ o.readersLen = 0 then []
  else if o.sizeResult ≠ ScardResult.sSuccess then store
  else if o.dataResult ≠ ScardResult.sSuccess then store
  else
    (o.names.zip o.freshStates).map (fun p =>
      if o.stateResult = ScardResult.sSuccess then
        (p.1, ReaderInfo.mk (clearChangedBit p.2.1) p.2.2)
      else
        match lookupReader store p.1 with
        | some prev => (p.1, prev)
        | none => (p.1, ReaderInfo.mk SCARD_STATE_UNAWARE []))

/-- Mapping a function that only looks at the first component over a zip
of fully covered names is a map over the names. -/
lemma map_zip_eval_fst {α β γ : Type} (f : α → γ) :
    ∀ (l₁ : List α) (l₂ : List β), l₁.length ≤ l₂.length →
      (l₁.zip l₂).map (fun p => f p.1) = l₁.map f
  | [], _, _ => rfl
  | _ :: _, [], h => by simp at h
  | a :: l₁, b :: l₂, h => by
    simp only [List.zip_cons_cons, List.map_cons]
    rw [map_zip_eval_fst f l₁ l₂ (by simpa using h)]

/-- A name absent from the store's key list has no entry. -/
lemma lookupReader_eq_none_of_not_mem (store : ReaderStates) (name : String)
    (h : name ∉ store.map Prod.fst) : lookupReader store name = none := by
  have hfind : store.find? (fun p => p.1 == name) = none := by
    rw [List.find?_eq_none]
    intro p hp hbeq
    have h1 : p.1 = name := beq_iff_eq.mp hbeq
    have hm : p.1 ∈ store.map Prod.fst := List.mem_map_of_mem Prod.fst hp
    rw [h1] at hm
    exact h hm
  unfold lookupReader
  rw [hfind]
  rfl

/-- A successful lookup names an entry of the store. -/
lemma mem_of_lookupReader_eq_some {store : ReaderStates} {name : String}
    {info : ReaderInfo} (h : lookupReader store name = some info) :
    (name, info) ∈ store := by
  unfold lookupReader at h
  cases hf : store.find? (fun p => p.1 == name) with
  | none => rw [hf] at h; exact absurd h (by simp)
  | some p =>
    rw [hf] at h
    have hmem := List.mem_of_find?_eq_some hf
    have hsat := List.find?_some hf
    have hname : p.1 = name := by simpa using hsat
    have hinfo : p.2 = info := by simpa using h
    have hp : p = (name, info) := by rw [← hname, ← hinfo]
    rw [hp] at hmem
    exact hmem

/-- C2 counterexample: a refresh whose bulk status query succeeds does
not keep a surviving reader's stored flags and ATR: reader "A" stored
as present with ATR [0x3B] is re-stored with the freshly queried flags
(empty, 0x10) and an empty ATR after a successful refresh that
enumerates ["A", "B"]. -/
theorem updateReaderList_overwrites_counterexample :
    lookupReader
        (UpdateReaderList [("A", ReaderInfo.mk 0x20 [0x3B])]
          (ListReadersOutcome.mk ScardResult.sSuccess 8 ScardResult.sSuccess
            ["A", "B"] ScardResult.sSuccess [(0x12, []), (0x22, [0x3B])]))
        "A"
      ≠ some (ReaderInfo.mk 0x20 [0x3B]) := by decide

/-- C2 (amended): after a refresh in which both SCardListReaders calls
succeed with a nonzero length, the store's keys are exactly the
enumerated names (so names no longer enumerated are removed); when the
bulk status query fails, surviving names keep their prior entry and new
names are added unaware; when it succeeds, every enumerated name —
surviving or new — is stored with the freshly queried event state (with
the CHANGED bit masked out) and the fresh ATR. -/
theorem updateReaderList_refresh_spec (store : ReaderStates) (o : ListReadersOutcome)
    (h1 : o.sizeResult = ScardResult.sSuccess) (h2 : o.readersLen ≠ 0)
    (h3 : o.dataResult = ScardResult.sSuccess)
    (hlen : o.names.length ≤ o.freshStates.length) :
    (UpdateReaderList store o).map Prod.fst = o.names ∧
    (o.stateResult ≠ ScardResult.sSuccess →
      UpdateReaderList store o =
        o.names.map (fun name =>
          (name, (lookupReader store name).getD (ReaderInfo.mk SCARD_STATE_UNAWARE [])))) ∧
    (o.stateResult = ScardResult.sSuccess →
      UpdateReaderList store o =
        (o.names.zip o.freshStates).map (fun p =>
          (p.1, ReaderInfo.mk (clearChangedBit p.2.1) p.2.2))) ∧
    (∀ name, name ∉ o.names → lookupReader (UpdateReaderList store o) name = none) := by
  have hbranch : UpdateReaderList store o =
      (o.names.zip o.freshStates).map (fun p =>
        if o.stateResult = ScardResult.sSuccess then
          (p.1, ReaderInfo.mk (clearChangedBit p.2.1) p.2.2)
        else
          match lookupReader store p.1 with
          | some prev => (p.1, prev)
          | none => (p.1, ReaderInfo.mk SCARD_STATE_UNAWARE [])) := by
    simp [UpdateReaderList, h1, h2, h3]
  have hkeys : (UpdateReaderList store o).map Prod.fst = o.names := by
    rw [hbranch, List.map_map]
    have hfun : (Prod.fst ∘ fun p : String × (Nat × List Nat) =>
        if o.stateResult = ScardResult.sSuccess then
          (p.1, ReaderInfo.mk (clearChangedBit p.2.1) p.2.2)
        else
          match lookupReader store p.1 with
          | some prev => (p.1, prev)
          | none => (p.1, ReaderInfo.mk SCARD_STATE_UNAWARE [])) =
        (fun p : String × (Nat × List Nat) => p.1) := by
      funext p
      by_cases hss : o.stateResult = ScardResult.sSuccess
      · simp [hss]
      · cases hlk : lookupReader store p.1 <;> simp [hss, hlk]
    rw [hfun, map_zip_eval_fst (fun x => x) o.names o.freshStates hlen]
    simp
  refine ⟨hkeys, ?_, ?_, ?_⟩
  · intro hns
    rw [hbranch]
    have hfun : (fun p : String × (Nat × List Nat) =>
        if o.stateResult = ScardResult.sSuccess then
          (p.1, ReaderInfo.mk (clearChangedBit p.2.1) p.2.2)
        else
          match lookupReader store p.1 with
          | some prev => (p.1, prev)
          | none => (p.1, ReaderInfo.mk SCARD_STATE_UNAWARE [])) =
        (fun p : String × (Nat × List Nat) =>
          (p.1, (lookupReader store p.1).getD (ReaderInfo.mk SCARD_STATE_UNAWARE []))) := by
      funext p
      cases hlk : lookupReader store p.1 <;> simp [hns, hlk]
    rw [hfun]
    exact map_zip_eval_fst
      (fun name => (name, (lookupReader store name).getD (ReaderInfo.mk SCARD_STATE_UNAWARE [])))
      o.names o.freshStates hlen
  · intro hss
    rw [hbranch]
    simp [hss]
  · intro name hname
    apply lookupReader_eq_none_of_not_mem
    rw [hkeys]
    exact hname

/-- Witness for the amended C2 theorem at a concrete refresh: starting
from an empty store, a successful refresh enumerating ["A"] yields a
store whose key list is exactly ["A"]. -/
theorem updateReaderList_refresh_spec_witness :
    (UpdateReaderList []
        (ListReadersOutcome.mk ScardResult.sSuccess 4 ScardResult.sSuccess
          ["A"] ScardResult.sSuccess [(0x12, [])])).map Prod.fst = ["A"] :=
  (updateReaderList_refresh_spec []
    (ListReadersOutcome.mk ScardResult.sSuccess 4 ScardResult.sSuccess
      ["A"] ScardResult.sSuccess [(0x12, [])])
    rfl (by decide) rfl (by decide)).1

/-- C10 counterexample: a buffer-size query failing with a non-success,
non-no-readers code (PC/SC service not running) while the reported
length stayed 0 — the value the code initializes it to and a failing
call never overwrites — clears the store instead of leaving it
unchanged. -/
theorem updateReaderList_size_error_clears_counterexample :
    UpdateReaderList [("A", ReaderInfo.mk 0x20 [])]
        (ListReadersOutcome.mk ScardResult.eNoService 0 ScardResult.sSuccess
          [] ScardResult.sSuccess [])
      ≠ [("A", ReaderInfo.mk 0x20 [])] := by decide

/-- C10 (amended): UpdateReaderList clears the store exactly when the
buffer-size query reports the no-readers code or a zero length; a
failing size query leaves the store unchanged only when its reported
length is nonzero; and a failing name-fetch call always leaves the
store unchanged when the size query succeeded with a nonzero length. -/
theorem updateReaderList_failure_spec (store : ReaderStates) (o : ListReadersOutcome) :
    ((o.sizeResult = ScardResult.eNoReadersAvailable ∨ o.readersLen = 0) →
      UpdateReaderList store o = []) ∧
    (o.sizeResult ≠ ScardResult.eNoReadersAvailable → o.readersLen ≠ 0 →
      o.sizeResult ≠ ScardResult.sSuccess → UpdateReaderList store o = store) ∧
    (o.sizeResult = ScardResult.sSuccess → o.readersLen ≠ 0 →
      o.dataResult ≠ ScardResult.sSuccess → UpdateReaderList store o = store) := by
  refine ⟨?_, ?_, ?_⟩
  · intro h
    unfold UpdateReaderList
    rw [if_pos h]
  · intro h1 h2 h3
    unfold UpdateReaderList
    rw [if_neg (by simp [h1, h2]), if_pos h3]
  · intro h1 h2 h3
    unfold UpdateReaderList
    rw [if_neg (by simp [h1, h2]), if_neg (by simp [h1]), if_pos h3]

/-- Witness for the amended C10 theorem at a concrete input: a name-fetch
failure with the size query succeeded leaves a one-reader store
unchanged. -/
theorem updateReaderList_failure_spec_witness :
    UpdateReaderList [("A", ReaderInfo.mk 0x20 [])]
        (ListReadersOutcome.mk ScardResult.sSuccess 4 (ScardResult.otherError 5)
          [] ScardResult.sSuccess [])
      = [("A", ReaderInfo.mk 0x20 [])] :=
  (updateReaderList_failure_spec [("A", ReaderInfo.mk 0x20 [])]
    (ListReadersOutcome.mk ScardResult.sSuccess 4 (ScardResult.otherError 5)
      [] ScardResult.sSuccess [])).2.2 rfl (by decide) (by decide)

/-! ## Monitor loop -/

/-- Mirrors `static const int STATE_REFRESH_INTERVAL = 10` from
src/reader_monitor.cpp. -/
def STATE_REFRESH_INTERVAL : Nat := 10

/-- The PnP sentinel reader name from src/reader_monitor.cpp (the C++
literal "\\\\?PnP?\\Notification"). -/
def pnpSentinelName : String := "\\\\?PnP?\\Notification"

/-- The ground-truth wait-set both reconciliation passes build: one
entry per stored reader with `dwCurrentState = SCARD_STATE_UNAWARE`. -/
def buildFreshQuery (store : ReaderStates) : List (String × Nat) :=
  store.map (fun p => (p.1, SCARD_STATE_UNAWARE))

/-- The store/event transformation shared verbatim by the periodic
full-refresh block (reader_monitor.cpp lines 160-211) and the timeout
branch (lines 247-303): when the store is nonempty and the zero-timeout
unaware query succeeded, diff each stored reader's PRESENT bit against
the freshly reported state (with CHANGED masked out); on a difference,
store the fresh state and ATR and emit card-inserted or card-removed;
otherwise leave the entry and emit nothing. The fresh query's outputs
are passed positionally, in store order, as the code builds its query
array by iterating the store. -/
def refreshStep (e : (String × ReaderInfo) × (Nat × List Nat)) :
    (String × ReaderInfo) × List Event :=
  let freshState := clearChangedBit e.2.1
  let wasPresent : Bool := e.1.2.lastState &&& SCARD_STATE_PRESENT != 0
  let isPresent : Bool := freshState &&& SCARD_STATE_PRESENT != 0
  if wasPresent != isPresent then
    ((e.1.1, ReaderInfo.mk freshState e.2.2),
      if isPresent then [Event.mk "card-inserted" e.1.1 freshState e.2.2]
      else [Event.mk "card-removed" e.1.1 freshState []])
  else (e.1, [])

/-- The guard structure around `refreshStep` shared by both passes: no
query and no change when the store is empty, no change when the fresh
query failed, else apply `refreshStep` to each (stored entry, fresh
output) pair in store order. -/
def refreshAllReaderStates (store : ReaderStates) (freshResult : ScardResult)
    (fresh : List (Nat × List Nat)) : ReaderStates × List Event :=
  if store.isEmpty then (store, [])
  else if freshResult ≠ ScardResult.sSuccess then (store, [])
  else
    let processed := (store.zip fresh).map refreshStep
    (processed.map Prod.fst, processed.flatMap Prod.snd)

/-- Mirrors the per-reader branch of the success case
(reader_monitor.cpp lines 387-414): look the changed entry up by name;
when found, store the new event state with CHANGED masked out and the
new ATR, and emit card-inserted or card-removed when the PRESENT bit
flipped (the emitted event carries the unmasked event state, as the
code passes `newState` before masking). -/
def processSuccessEntry (store : ReaderStates) (readerName : String)
    (newState : Nat) (atr : List Nat) : ReaderStates × List Event :=
  match lookupReader store readerName with
  | none => (store, [])
  | some info =>
    let wasPresent : Bool := info.lastState &&& SCARD_STATE_PRESENT != 0
    let isPresent : Bool := newState &&& SCARD_STATE_PRESENT != 0
    let updated := updateReader store readerName
      (ReaderInfo.mk (clearChangedBit newState) atr)
    (updated,
      if !wasPresent && isPresent then [Event.mk "card-inserted" readerName newState atr]
      else if wasPresent && !isPresent then [Event.mk "card-removed" readerName newState []]
      else [])

/-- Mirrors the PnP branch of the success case (reader_monitor.cpp lines
322-381): snapshot the old store, rebuild it with UpdateReaderList, then
emit reader-attached for names present only afterwards, reader-detached
(flags 0, empty ATR) for names present only before, and, for names
present in both snapshots, card-inserted/card-removed when the stored
PRESENT bit differs between the snapshots. -/
def handlePnpChange (store : ReaderStates) (o : ListReadersOutcome) :
    ReaderStates × List Event :=
  let oldNames := store.map Prod.fst
  let newStore := UpdateReaderList store o
  let attachEvents := (newStore.filter (fun p => !(oldNames.contains p.1))).map
    (fun p => Event.mk "reader-attached" p.1 p.2.lastState p.2.atr)
  let detachEvents := (oldNames.filter
      (fun n => !(lookupReader newStore n).isSome)).map
    (fun n => Event.mk "reader-detached" n 0 [])
  let reconEvents := newStore.filterMap (fun p =>
    match lookupReader store p.1 with
    | none => none
    | some oldInfo =>
      let wasPresent : Bool := oldInfo.lastState &&& SCARD_STATE_PRESENT != 0
      let isPresent : Bool := p.2.lastState &&& SCARD_STATE_PRESENT != 0
      if !wasPresent && isPresent then
        some (Event.mk "card-inserted" p.1 p.2.lastState p.2.atr)
      else if wasPresent && !isPresent then
        some (Event.mk "card-removed" p.1 p.2.lastState [])
      else none)
  (newStore, attachEvents ++ detachEvents ++ reconEvents)

/-- Mirrors the result-processing loop of the success case
(reader_monitor.cpp lines 317-419): walk the wait-set entries in order,
skip entries without the CHANGED bit, dispatch the PnP sentinel to the
reader-list handler and stop processing the batch there (the code
breaks, as wait-set indices past a reader-list change are stale), and
process every other changed entry by name. -/
def processSuccessEntries (store : ReaderStates) (pnpRefresh : ListReadersOutcome) :
    List (String × Nat × List Nat) → ReaderStates × List Event
  | [] => (store, [])
  | e :: rest =>
    if e.2.1 &&& SCARD_STATE_CHANGED == 0 then
      processSuccessEntries store pnpRefresh rest
    else if e.1 == pnpSentinelName then
      handlePnpChange store pnpRefresh
    else
      let r := processSuccessEntry store e.1 e.2.1 e.2.2
      let next := processSuccessEntries r.1 pnpRefresh rest
      (next.1, r.2 ++ next.2)

/-- The wait-set built each iteration (reader_monitor.cpp lines 213-234):
one entry per stored reader carrying its last stored flags, then the PnP
sentinel entry with SCARD_STATE_UNAWARE. -/
def buildWaitSet (store : ReaderStates) : List (String × Nat) :=
  store.map (fun p => (p.1, p.2.lastState)) ++ [(pnpSentinelName, SCARD_STATE_UNAWARE)]

/-- Outcome of one loop iteration: the loop either exits (break) or goes
on to the next iteration after sleeping `backoffMs` milliseconds. -/
inductive StepOutcome where
  | exitLoop
  | continueLoop (backoffMs : Nat)
deriving DecidableEq, Repr

/-- The primitive outputs one iteration of MonitorLoop consumes: the
periodic ground-truth query's result and per-reader outputs, the value
of `running_` read right after the blocking call, the blocking
SCardGetStatusChange result, the outputs of the timeout branch's
zero-timeout query, the per-wait-set-entry event states and ATRs
reported by a successful blocking call, and the enumeration outputs the
PnP branch's UpdateReaderList would consume. -/
structure IterationInputs where
  periodicResult : ScardResult
  periodicFresh : List (Nat × List Nat)
  running : Bool
  result : ScardResult
  timeoutFreshResult : ScardResult
  timeoutFresh : List (Nat × List Nat)
  waitStates : List (Nat × List Nat)
  pnpRefresh : ListReadersOutcome
deriving DecidableEq, Repr

/-- Mirrors the classification of the blocking call's result
(reader_monitor.cpp lines 239-419): exit when `running_` was cleared or
the call was cancelled; on timeout run the ground-truth reconciliation
and continue; on any other non-success result emit one error event
carrying the human-readable description and continue after a 1000 ms
backoff; on success process the wait-set entries. -/
def handleWaitResult (store : ReaderStates) (inp : IterationInputs) :
    ReaderStates × List Event × StepOutcome :=
  if inp.running = false then (store, [], StepOutcome.exitLoop)
  else if inp.result = ScardResult.eCancelled then (store, [], StepOutcome.exitLoop)
  else if inp.result = ScardResult.eTimeout then
    let r := refreshAllReaderStates store inp.timeoutFreshResult inp.timeoutFresh
    (r.1, r.2, StepOutcome.continueLoop 0)
  else if inp.result ≠ ScardResult.sSuccess then
    (store, [Event.mk "error" (GetPCSCErrorString inp.result) 0 []],
      StepOutcome.continueLoop 1000)
  else
    let entries := ((buildWaitSet store).map Prod.fst).zip inp.waitStates
    let r := processSuccessEntries store inp.pnpRefresh entries
    (r.1, r.2, StepOutcome.continueLoop 0)

/-- One full iteration of the steady-state loop: bump the iteration
counter, run the periodic full refresh when the counter reaches
STATE_REFRESH_INTERVAL (resetting it), then build the wait-set, block,
and handle the blocking call's result. Returns the new store, the new
counter, the events emitted this iteration in order, and whether the
loop continues. -/
def monitorIteration (store : ReaderStates) (count : Nat) (inp : IterationInputs) :
    ReaderStates × Nat × List Event × StepOutcome :=
  let c := count + 1
  let periodic :=
    if STATE_REFRESH_INTERVAL ≤ c then
      (refreshAllReaderStates store inp.periodicResult inp.periodicFresh, 0)
    else ((store, ([] : List Event)), c)
  let r := handleWaitResult periodic.1.1 inp
  (r.1, periodic.2, periodic.1.2 ++ r.2.1, r.2.2)

/-- Run the steady-state loop over a sequence of per-iteration primitive
outputs, stopping early when an iteration exits the loop. Returns the
final store and the concatenated event trace. -/
def runMonitorIterations (store : ReaderStates) (count : Nat) :
    List IterationInputs → ReaderStates × List Event
  | [] => (store, [])
  | inp :: rest =>
    let r := monitorIteration store count inp
    match r.2.2.2 with
    | StepOutcome.exitLoop => (r.1, r.2.2.1)
    | StepOutcome.continueLoop _ =>
      let next := runMonitorIterations r.1 r.2.1 rest
      (next.1, r.2.2.1 ++ next.2)

/-- The attach events MonitorLoop emits right after its initial
UpdateReaderList (reader_monitor.cpp lines 144-150): one reader-attached
event per stored reader, carrying the stored flags and ATR. -/
def startupAttachEvents (store : ReaderStates) : List Event :=
  store.map (fun p => Event.mk "reader-attached" p.1 p.2.lastState p.2.atr)

/-- Mirrors `ReaderMonitor::MonitorLoop` end to end as an event trace:
the initial UpdateReaderList, the attach events for every pre-existing
reader, then the steady-state iterations. -/
def MonitorLoop (initialRefresh : ListReadersOutcome)
    (steps : List IterationInputs) : List Event :=
  let store0 := UpdateReaderList [] initialRefresh
  startupAttachEvents store0 ++ (runMonitorIterations store0 0 steps).2

/-! ## Claims about result classification -/

/-- C6: a Cancelled result from the blocking wait, with the running flag
still set, makes the monitor loop exit cleanly: the store is untouched,
no event of any kind is emitted, and the outcome is exitLoop. -/
theorem cancelled_exits_cleanly (store : ReaderStates) (inp : IterationInputs)
    (hr : inp.running = true) (hc : inp.result = ScardResult.eCancelled) :
    handleWaitResult store inp = (store, [], StepOutcome.exitLoop) := by
  simp [handleWaitResult, hr, hc]

/-- Witness for C6: a concrete cancelled iteration on a one-reader store
exits without events. -/
theorem cancelled_exits_cleanly_witness :
    handleWaitResult [("A", ReaderInfo.mk 0x20 [])]
        (IterationInputs.mk ScardResult.sSuccess [] true ScardResult.eCancelled
          ScardResult.sSuccess [] []
          (ListReadersOutcome.mk ScardResult.sSuccess 0 ScardResult.sSuccess []
            ScardResult.sSuccess []))
      = ([("A", ReaderInfo.mk 0x20 [])], [], StepOutcome.exitLoop) :=
  cancelled_exits_cleanly [("A", ReaderInfo.mk 0x20 [])]
    (IterationInputs.mk ScardResult.sSuccess [] true ScardResult.eCancelled
      ScardResult.sSuccess [] []
      (ListReadersOutcome.mk ScardResult.sSuccess 0 ScardResult.sSuccess []
        ScardResult.sSuccess []))
    rfl rfl

/-- C7: any blocking-wait result that is neither success nor timeout nor
cancelled (with the running flag still set) emits exactly one error
event carrying the human-readable error description, leaves the store
untouched, and continues the loop after a 1000 ms backoff. -/
theorem transient_error_emits_and_continues (store : ReaderStates)
    (inp : IterationInputs) (hr : inp.running = true)
    (h1 : inp.result ≠ ScardResult.sSuccess)
    (h2 : inp.result ≠ ScardResult.eTimeout)
    (h3 : inp.result ≠ ScardResult.eCancelled) :
    handleWaitResult store inp =
      (store, [Event.mk "error" (GetPCSCErrorString inp.result) 0 []],
        StepOutcome.continueLoop 1000) := by
  simp [handleWaitResult, hr, h1, h2, h3]

/-- Witness for C7: a concrete no-service failure of the blocking wait
emits one error event with its description and continues. -/
theorem transient_error_emits_and_continues_witness :
    handleWaitResult [("A", ReaderInfo.mk 0x20 [])]
        (IterationInputs.mk ScardResult.sSuccess [] true ScardResult.eNoService
          ScardResult.sSuccess [] []
          (ListReadersOutcome.mk ScardResult.sSuccess 0 ScardResult.sSuccess []
            ScardResult.sSuccess []))
      = ([("A", ReaderInfo.mk 0x20 [])],
          [Event.mk "error" "PC/SC service not running" 0 []],
          StepOutcome.continueLoop 1000) :=
  transient_error_emits_and_continues [("A", ReaderInfo.mk 0x20 [])]
    (IterationInputs.mk ScardResult.sSuccess [] true ScardResult.eNoService
      ScardResult.sSuccess [] []
      (ListReadersOutcome.mk ScardResult.sSuccess 0 ScardResult.sSuccess []
        ScardResult.sSuccess []))
    rfl (by decide) (by decide) (by decide)

/-! ## Timeout reconciliation (C3) -/

/-- Per-entry characterization of a successful ground-truth
reconciliation pass: a stored reader whose PRESENT bit differs from the
freshly reported state (CHANGED masked) has its entry replaced by the
fresh state and ATR, and the matching card event is emitted. -/
lemma refreshAll_entry (store : ReaderStates) (fresh : List (Nat × List Nat))
    (i : Nat) (name : String) (info : ReaderInfo) (fs : Nat) (a : List Nat)
    (hsi : store[i]? = some (name, info))
    (hfi : fresh[i]? = some (fs, a))
    (hdiff : (info.lastState &&& SCARD_STATE_PRESENT != 0)
        ≠ (clearChangedBit fs &&& SCARD_STATE_PRESENT != 0)) :
    (refreshAllReaderStates store ScardResult.sSuccess fresh).1[i]?
        = some (name, ReaderInfo.mk (clearChangedBit fs) a) ∧
    (if (clearChangedBit fs &&& SCARD_STATE_PRESENT != 0) = true
        then Event.mk "card-inserted" name (clearChangedBit fs) a
        else Event.mk "card-removed" name (clearChangedBit fs) [])
      ∈ (refreshAllReaderStates store ScardResult.sSuccess fresh).2 := by
  have hne : store.isEmpty = false := by
    cases store with
    | nil => simp at hsi
    | cons x xs => rfl
  have hz : (store.zip fresh)[i]? = some ((name, info), (fs, a)) :=
    List.getElem?_zip_eq_some.mpr ⟨hsi, hfi⟩
  have hcond : ((info.lastState &&& SCARD_STATE_PRESENT != 0)
      != (clearChangedBit fs &&& SCARD_STATE_PRESENT != 0)) = true := by
    simpa [bne_iff_ne] using hdiff
  have hgoal : refreshAllReaderStates store ScardResult.sSuccess fresh =
      (((store.zip fresh).map refreshStep).map Prod.fst,
        ((store.zip fresh).map refreshStep).flatMap Prod.snd) := by
    simp [refreshAllReaderStates, hne]
  rw [hgoal]
  have hp : ((store.zip fresh).map refreshStep)[i]?
      = some (refreshStep ((name, info), (fs, a))) := by
    rw [List.getElem?_map, hz]
    rfl
  have hmem : refreshStep ((name, info), (fs, a))
      ∈ (store.zip fresh).map refreshStep := List.getElem?_mem hp
  constructor
  · rw [List.getElem?_map, hp]
    cases hip : (clearChangedBit fs &&& SCARD_STATE_PRESENT != 0) with
    | false =>
      have hwp : (info.lastState &&& SCARD_STATE_PRESENT != 0) = true := by
        cases hw : (info.lastState &&& SCARD_STATE_PRESENT != 0) with
        | true => rfl
        | false => rw [hw, hip] at hdiff; exact absurd rfl hdiff
      simp [refreshStep, hwp, hip]
    | true =>
      have hwp : (info.lastState &&& SCARD_STATE_PRESENT != 0) = false := by
        cases hw : (info.lastState &&& SCARD_STATE_PRESENT != 0) with
        | false => rfl
        | true => rw [hw, hip] at hdiff; exact absurd rfl hdiff
      simp [refreshStep, hwp, hip]
  · rw [List.mem_flatMap]
    refine ⟨refreshStep ((name, info), (fs, a)), hmem, ?_⟩
    cases hip : (clearChangedBit fs &&& SCARD_STATE_PRESENT != 0) with
    | false =>
      have hwp : (info.lastState &&& SCARD_STATE_PRESENT != 0) = true := by
        cases hw : (info.lastState &&& SCARD_STATE_PRESENT != 0) with
        | true => rfl
        | false => rw [hw, hip] at hdiff; exact absurd rfl hdiff
      simp [refreshStep, hwp, hip]
    | true =>
      have hwp : (info.lastState &&& SCARD_STATE_PRESENT != 0) = false := by
        cases hw : (info.lastState &&& SCARD_STATE_PRESENT != 0) with
        | false => rfl
        | true => rw [hw, hip] at hdiff; exact absurd rfl hdiff
      simp [refreshStep, hwp, hip]

/-- C3: whenever the blocking wait returns Timeout with the store
non-empty, the second query the monitor issues carries every reader's
flags forced to UNAWARE, the loop continues, and every stored reader
whose PRESENT bit in the fresh result (CHANGED masked) differs from its
stored flags has its entry replaced by the fresh flags and ATR and the
matching card-inserted or card-removed event emitted — in particular a
reader stored as absent that the ground-truth query reports present
yields card-inserted even though the blocking call timed out. -/
theorem timeout_reconciliation (store : ReaderStates) (inp : IterationInputs)
    (hr : inp.running = true) (ht : inp.result = ScardResult.eTimeout)
    (hfr : inp.timeoutFreshResult = ScardResult.sSuccess)
    (hne : store ≠ [])
    (i : Nat) (name : String) (info : ReaderInfo) (fs : Nat) (a : List Nat)
    (hsi : store[i]? = some (name, info))
    (hfi : inp.timeoutFresh[i]? = some (fs, a))
    (hdiff : (info.lastState &&& SCARD_STATE_PRESENT != 0)
        ≠ (clearChangedBit fs &&& SCARD_STATE_PRESENT != 0)) :
    (∀ q ∈ buildFreshQuery store, q.2 = SCARD_STATE_UNAWARE) ∧
    (handleWaitResult store inp).2.2 = StepOutcome.continueLoop 0 ∧
    (handleWaitResult store inp).1[i]?
        = some (name, ReaderInfo.mk (clearChangedBit fs) a) ∧
    (if (clearChangedBit fs &&& SCARD_STATE_PRESENT != 0) = true
        then Event.mk "card-inserted" name (clearChangedBit fs) a
        else Event.mk "card-removed" name (clearChangedBit fs) [])
      ∈ (handleWaitResult store inp).2.1 := by
  have hred : handleWaitResult store inp =
      ((refreshAllReaderStates store inp.timeoutFreshResult inp.timeoutFresh).1,
        (refreshAllReaderStates store inp.timeoutFreshResult inp.timeoutFresh).2,
        StepOutcome.continueLoop 0) := by
    simp [handleWaitResult, hr, ht]
  have hentry := refreshAll_entry store inp.timeoutFresh i name info fs a hsi hfi hdiff
  refine ⟨?_, ?_, ?_, ?_⟩
  · intro q hq
    simp only [buildFreshQuery, List.mem_map] at hq
    obtain ⟨p, _, hp⟩ := hq
    rw [← hp]
  · rw [hred]
  · rw [hred, hfr] at *
    exact hentry.1
  · rw [hred, hfr] at *
    exact hentry.2

/-- Witness for C3: with reader "A" stored as absent (empty flag 0x10)
and the ground-truth query reporting CHANGED|PRESENT (0x22) with ATR
[1], the timed-out iteration emits card-inserted for "A". -/
theorem timeout_reconciliation_witness :
    (if (clearChangedBit 0x22 &&& SCARD_STATE_PRESENT != 0) = true
        then Event.mk "card-inserted" "A" (clearChangedBit 0x22) [1]
        else Event.mk "card-removed" "A" (clearChangedBit 0x22) [])
      ∈ (handleWaitResult [("A", ReaderInfo.mk 0x10 [])]
          (IterationInputs.mk ScardResult.sSuccess [] true ScardResult.eTimeout
            ScardResult.sSuccess [(0x22, [1])] []
            (ListReadersOutcome.mk ScardResult.sSuccess 0 ScardResult.sSuccess []
              ScardResult.sSuccess []))).2.1 :=
  (timeout_reconciliation [("A", ReaderInfo.mk 0x10 [])]
    (IterationInputs.mk ScardResult.sSuccess [] true ScardResult.eTimeout
      ScardResult.sSuccess [(0x22, [1])] []
      (ListReadersOutcome.mk ScardResult.sSuccess 0 ScardResult.sSuccess []
        ScardResult.sSuccess []))
    rfl rfl rfl (by decide) 0 "A" (ReaderInfo.mk 0x10 []) 0x22 [1]
    (by decide) (by decide) (by decide)).2.2.2

/-! ## Reader-list-change handling (C4) -/

/-- A name not in a list fails the linear `contains` search. -/
lemma contains_eq_false_of_not_mem {l : List String} {a : String} (h : a ∉ l) :
    l.contains a = false := by
  cases hc : l.contains a with
  | false => rfl
  | true => exact absurd (List.mem_of_elem_eq_true hc) h

/-- C4: on a changed sentinel entry the success batch dispatches to the
reader-list handler and ignores the remaining (stale) wait-set entries;
the handler's new store is the refreshed one; it emits reader-attached
for every entry of the refreshed store whose name was not stored before,
reader-detached with flags 0 and no ATR for every previously stored name
that no longer resolves, and card-inserted/card-removed for every
refreshed entry whose name was stored before with a different PRESENT
bit — all keyed by reader name. -/
theorem pnp_reader_list_change (store : ReaderStates) (o : ListReadersOutcome) :
    ((handlePnpChange store o).1 = UpdateReaderList store o) ∧
    (∀ es atr rest, es &&& SCARD_STATE_CHANGED ≠ 0 →
      processSuccessEntries store o ((pnpSentinelName, (es, atr)) :: rest)
        = handlePnpChange store o) ∧
    (∀ p ∈ UpdateReaderList store o, p.1 ∉ store.map Prod.fst →
      Event.mk "reader-attached" p.1 p.2.lastState p.2.atr
        ∈ (handlePnpChange store o).2) ∧
    (∀ name ∈ store.map Prod.fst,
      lookupReader (UpdateReaderList store o) name = none →
      Event.mk "reader-detached" name 0 [] ∈ (handlePnpChange store o).2) ∧
    (∀ p ∈ UpdateReaderList store o, ∀ oldInfo,
      lookupReader store p.1 = some oldInfo →
      (((oldInfo.lastState &&& SCARD_STATE_PRESENT != 0) = false →
        (p.2.lastState &&& SCARD_STATE_PRESENT != 0) = true →
        Event.mk "card-inserted" p.1 p.2.lastState p.2.atr
          ∈ (handlePnpChange store o).2) ∧
       ((oldInfo.lastState &&& SCARD_STATE_PRESENT != 0) = true →
        (p.2.lastState &&& SCARD_STATE_PRESENT != 0) = false →
        Event.mk "card-removed" p.1 p.2.lastState []
          ∈ (handlePnpChange store o).2))) := by
  refine ⟨rfl, ?_, ?_, ?_, ?_⟩
  · intro es atr rest h
    have hb : (es &&& SCARD_STATE_CHANGED == 0) = false := by
      simpa using h
    simp [processSuccessEntries, hb]
  · intro p hp hnot
    have hfilter : p ∈ (UpdateReaderList store o).filter
        (fun q => !((store.map Prod.fst).contains q.1)) :=
      List.mem_filter.mpr ⟨hp, by rw [contains_eq_false_of_not_mem hnot]; rfl⟩
    have hmem := List.mem_map_of_mem
      (fun q : String × ReaderInfo =>
        Event.mk "reader-attached" q.1 q.2.lastState q.2.atr) hfilter
    simp only [handlePnpChange]
    exact List.mem_append.mpr (Or.inl (List.mem_append.mpr (Or.inl hmem)))
  · intro name hname hnone
    have hfilter : name ∈ (store.map Prod.fst).filter
        (fun n => !(lookupReader (UpdateReaderList store o) n).isSome) :=
      List.mem_filter.mpr ⟨hname, by rw [hnone]; rfl⟩
    have hmem := List.mem_map_of_mem
      (fun n => Event.mk "reader-detached" n 0 []) hfilter
    simp only [handlePnpChange]
    exact List.mem_append.mpr (Or.inl (List.mem_append.mpr (Or.inr hmem)))
  · intro p hp oldInfo hlk
    constructor
    · intro hwas his
      have hmem : Event.mk "card-inserted" p.1 p.2.lastState p.2.atr
          ∈ (UpdateReaderList store o).filterMap (fun q =>
            match lookupReader store q.1 with
            | none => none
            | some oldi =>
              let wasPresent : Bool := oldi.lastState &&& SCARD_STATE_PRESENT != 0
              let isPresent : Bool := q.2.lastState &&& SCARD_STATE_PRESENT != 0
              if !wasPresent && isPresent then
                some (Event.mk "card-inserted" q.1 q.2.lastState q.2.atr)
              else if wasPresent && !isPresent then
                some (Event.mk "card-removed" q.1 q.2.lastState [])
              else none) := by
        rw [List.mem_filterMap]
        exact ⟨p, hp, by rw [hlk]; simp [hwas, his]⟩
      simp only [handlePnpChange]
      exact List.mem_append.mpr (Or.inr hmem)
    · intro hwas his
      have hmem : Event.mk "card-removed" p.1 p.2.lastState []
          ∈ (UpdateReaderList store o).filterMap (fun q =>
            match lookupReader store q.1 with
            | none => none
            | some oldi =>
              let wasPresent : Bool := oldi.lastState &&& SCARD_STATE_PRESENT != 0
              let isPresent : Bool := q.2.lastState &&& SCARD_STATE_PRESENT != 0
              if !wasPresent && isPresent then
                some (Event.mk "card-inserted" q.1 q.2.lastState q.2.atr)
              else if wasPresent && !isPresent then
                some (Event.mk "card-removed" q.1 q.2.lastState [])
              else none) := by
        rw [List.mem_filterMap]
        exact ⟨p, hp, by rw [hlk]; simp [hwas, his]⟩
      simp only [handlePnpChange]
      exact List.mem_append.mpr (Or.inr hmem)

/-- Witness for C4: a reader-list change that replaces the only reader
"A" by "B" (same position zero in the enumeration) emits reader-attached
for "B", attributed to the name. -/
theorem pnp_reader_list_change_witness :
    Event.mk "reader-attached" "B" 0x20 [7]
      ∈ (handlePnpChange [("A", ReaderInfo.mk 0x20 [])]
          (ListReadersOutcome.mk ScardResult.sSuccess 4 ScardResult.sSuccess
            ["B"] ScardResult.sSuccess [(0x22, [7])])).2 :=
  (pnp_reader_list_change [("A", ReaderInfo.mk 0x20 [])]
    (ListReadersOutcome.mk ScardResult.sSuccess 4 ScardResult.sSuccess
      ["B"] ScardResult.sSuccess [(0x22, [7])])).2.2.1
    ("B", ReaderInfo.mk 0x20 [7]) (by decide) (by decide)

/-! ## Stop teardown order (C9) -/

/-- The observable teardown steps of `ReaderMonitor::Stop`
(reader_monitor.cpp lines 102-134), in program order. -/
inductive TeardownAction where
  | clearRunningFlag
  | cancelWait
  | joinThread
  | releaseChannel
  | releaseContext
  | clearStore
deriving DecidableEq, Repr

/-- Mirrors the statement order of `ReaderMonitor::Stop`: return at once
when not running; else clear `running_`, cancel the blocking wait when
the context is valid, join the worker when joinable, release the
thread-safe function, release the context when valid, clear the store. -/
def StopSequence (running contextValid threadJoinable : Bool) : List TeardownAction :=
  if running = false then []
  else
    [TeardownAction.clearRunningFlag]
      ++ (if contextValid then [TeardownAction.cancelWait] else [])
      ++ (if threadJoinable then [TeardownAction.joinThread] else [])
      ++ [TeardownAction.releaseChannel]
      ++ (if contextValid then [TeardownAction.releaseContext] else [])
      ++ [TeardownAction.clearStore]

/-- C9: Stop on a running monitor (valid context, joinable worker)
performs exactly the teardown steps clear-running, cancel-wait, join,
release-channel, release-context, clear-store in that order; hence the
event channel is released only after the worker joined, and the context
only after the worker joined and the in-flight wait was cancelled. -/
theorem stop_teardown_order :
    StopSequence true true true =
      [TeardownAction.clearRunningFlag, TeardownAction.cancelWait,
        TeardownAction.joinThread, TeardownAction.releaseChannel,
        TeardownAction.releaseContext, TeardownAction.clearStore] ∧
    (StopSequence true true true).indexOf TeardownAction.joinThread
      < (StopSequence true true true).indexOf TeardownAction.releaseChannel ∧
    (StopSequence true true true).indexOf TeardownAction.joinThread
      < (StopSequence true true true).indexOf TeardownAction.releaseContext ∧
    (StopSequence true true true).indexOf TeardownAction.cancelWait
      < (StopSequence true true true).indexOf TeardownAction.joinThread := by
  decide

/-! ## The CHANGED bit is never stored (C5) -/

/-- Invariant: every stored flags word has SCARD_STATE_CHANGED clear. -/
def changedBitClear (store : ReaderStates) : Prop :=
  ∀ p ∈ store, p.2.lastState &&& SCARD_STATE_CHANGED = 0

/-- Masking with ~SCARD_STATE_CHANGED leaves the CHANGED bit clear. -/
lemma clearChangedBit_changed (x : Nat) :
    clearChangedBit x &&& SCARD_STATE_CHANGED = 0 := by
  unfold clearChangedBit SCARD_STATE_CHANGED
  rw [Nat.land_assoc]
  have h : (0xFFFFFFFD &&& 2 : Nat) = 0 := by decide
  rw [h, Nat.and_zero]

/-- UpdateReaderList preserves the CHANGED-clear invariant. -/
lemma inv_updateReaderList (store : ReaderStates) (o : ListReadersOutcome)
    (h : changedBitClear store) : changedBitClear (UpdateReaderList store o) := by
  intro p hp
  unfold UpdateReaderList at hp
  by_cases h1 : o.sizeResult = ScardResult.eNoReadersAvailable ∨ o.readersLen = 0
  · rw [if_pos h1] at hp
    simp at hp
  · rw [if_neg h1] at hp
    by_cases h2 : o.sizeResult ≠ ScardResult.sSuccess
    · rw [if_pos h2] at hp
      exact h p hp
    · rw [if_neg h2] at hp
      by_cases h3 : o.dataResult ≠ ScardResult.sSuccess
      · rw [if_pos h3] at hp
        exact h p hp
      · rw [if_neg h3] at hp
        rw [List.mem_map] at hp
        obtain ⟨q, hq, hpq⟩ := hp
        by_cases hss : o.stateResult = ScardResult.sSuccess
        · rw [if_pos hss] at hpq
          rw [← hpq]
          exact clearChangedBit_changed q.2.1
        · rw [if_neg hss] at hpq
          cases hlk : lookupReader store q.1 with
          | some prev =>
            rw [hlk] at hpq
            rw [← hpq]
            exact h (q.1, prev) (mem_of_lookupReader_eq_some hlk)
          | none =>
            rw [hlk] at hpq
            rw [← hpq]
            show SCARD_STATE_UNAWARE &&& SCARD_STATE_CHANGED = 0
            decide

/-- The first component of one reconciliation step is the original entry
or the entry rewritten with the CHANGED-masked fresh state. -/
lemma refreshStep_fst (e : (String × ReaderInfo) × (Nat × List Nat)) :
    (refreshStep e).1 = e.1 ∨
    (refreshStep e).1 = (e.1.1, ReaderInfo.mk (clearChangedBit e.2.1) e.2.2) := by
  cases hcond : ((e.1.2.lastState &&& SCARD_STATE_PRESENT != 0)
      != (clearChangedBit e.2.1 &&& SCARD_STATE_PRESENT != 0)) with
  | true =>
    right
    simp [refreshStep, hcond]
  | false =>
    left
    simp [refreshStep, hcond]

/-- Both ground-truth reconciliation passes preserve the invariant. -/
lemma inv_refreshAll (store : ReaderStates) (r : ScardResult)
    (fresh : List (Nat × List Nat)) (h : changedBitClear store) :
    changedBitClear (refreshAllReaderStates store r fresh).1 := by
  unfold refreshAllReaderStates
  by_cases he : store.isEmpty = true
  · rw [if_pos he]
    exact h
  · rw [if_neg he]
    by_cases hr : r ≠ ScardResult.sSuccess
    · rw [if_pos hr]
      exact h
    · rw [if_neg hr]
      dsimp only
      intro p hp
      rw [List.mem_map] at hp
      obtain ⟨q, hq, hq2⟩ := hp
      rw [List.mem_map] at hq
      obtain ⟨e, he2, hre⟩ := hq
      have hes : e.1 ∈ store := (List.of_mem_zip he2).1
      cases refreshStep_fst e with
      | inl h1 =>
        rw [← hq2, ← hre, h1]
        exact h e.1 hes
      | inr h1 =>
        rw [← hq2, ← hre, h1]
        exact clearChangedBit_changed e.2.1

/-- Processing one changed wait-set entry preserves the invariant. -/
lemma inv_processSuccessEntry (store : ReaderStates) (name : String)
    (ns : Nat) (atr : List Nat) (h : changedBitClear store) :
    changedBitClear (processSuccessEntry store name ns atr).1 := by
  cases hlk : lookupReader store name with
  | none =>
    simp only [processSuccessEntry, hlk]
    exact h
  | some info =>
    simp only [processSuccessEntry, hlk]
    intro p hp
    unfold updateReader at hp
    rw [List.mem_map] at hp
    obtain ⟨q, hq, hpq⟩ := hp
    by_cases hname : (q.1 == name) = true
    · rw [if_pos hname] at hpq
      rw [← hpq]
      exact clearChangedBit_changed ns
    · rw [if_neg hname] at hpq
      rw [← hpq]
      exact h q hq

/-- The whole success-batch walk preserves the invariant. -/
lemma inv_processSuccessEntries (pnp : ListReadersOutcome) :
    ∀ (entries : List (String × Nat × List Nat)) (store : ReaderStates),
      changedBitClear store →
      changedBitClear (processSuccessEntries store pnp entries).1
  | [], store, h => by
    simpa [processSuccessEntries] using h
  | e :: rest, store, h => by
    unfold processSuccessEntries
    by_cases h1 : (e.2.1 &&& SCARD_STATE_CHANGED == 0) = true
    · rw [if_pos h1]
      exact inv_processSuccessEntries pnp rest store h
    · rw [if_neg h1]
      by_cases h2 : (e.1 == pnpSentinelName) = true
      · rw [if_pos h2]
        exact inv_updateReaderList store pnp h
      · rw [if_neg h2]
        dsimp only
        exact inv_processSuccessEntries pnp rest _
          (inv_processSuccessEntry store e.1 e.2.1 e.2.2 h)

/-- Handling any blocking-wait result preserves the invariant. -/
lemma inv_handleWaitResult (store : ReaderStates) (inp : IterationInputs)
    (h : changedBitClear store) :
    changedBitClear (handleWaitResult store inp).1 := by
  unfold handleWaitResult
  by_cases h1 : inp.running = false
  · rw [if_pos h1]
    exact h
  · rw [if_neg h1]
    by_cases h2 : inp.result = ScardResult.eCancelled
    · rw [if_pos h2]
      exact h
    · rw [if_neg h2]
      by_cases h3 : inp.result = ScardResult.eTimeout
      · rw [if_pos h3]
        exact inv_refreshAll store inp.timeoutFreshResult inp.timeoutFresh h
      · rw [if_neg h3]
        by_cases h4 : inp.result ≠ ScardResult.sSuccess
        · rw [if_pos h4]
          exact h
        · rw [if_neg h4]
          exact inv_processSuccessEntries inp.pnpRefresh _ store h

/-- One full loop iteration preserves the invariant. -/
lemma inv_monitorIteration (store : ReaderStates) (count : Nat)
    (inp : IterationInputs) (h : changedBitClear store) :
    changedBitClear (monitorIteration store count inp).1 := by
  unfold monitorIteration
  dsimp only
  by_cases hc : STATE_REFRESH_INTERVAL ≤ count + 1
  · rw [if_pos hc]
    exact inv_handleWaitResult _ inp
      (inv_refreshAll store inp.periodicResult inp.periodicFresh h)
  · rw [if_neg hc]
    exact inv_handleWaitResult store inp h

/-- Running any number of iterations preserves the invariant. -/
lemma inv_runMonitorIterations :
    ∀ (steps : List IterationInputs) (store : ReaderStates) (count : Nat),
      changedBitClear store →
      changedBitClear (runMonitorIterations store count steps).1
  | [], store, count, h => by
    simpa [runMonitorIterations] using h
  | inp :: rest, store, count, h => by
    simp only [runMonitorIterations]
    split
    · exact inv_monitorIteration store count inp h
    · exact inv_runMonitorIterations rest _ _
        (inv_monitorIteration store count inp h)

/-- C5: in every store reachable from MonitorLoop's start (the initial
UpdateReaderList from an empty store followed by any sequence of loop
iterations over arbitrary primitive outputs), every stored flags word
has the SCARD_STATE_CHANGED bit cleared. -/
theorem reachable_store_changed_bit_clear (o : ListReadersOutcome)
    (steps : List IterationInputs) (p : String × ReaderInfo)
    (hp : p ∈ (runMonitorIterations (UpdateReaderList [] o) 0 steps).1) :
    p.2.lastState &&& SCARD_STATE_CHANGED = 0 :=
  inv_runMonitorIterations steps (UpdateReaderList [] o) 0
    (inv_updateReaderList [] o (by intro q hq; simp at hq)) p hp

/-- Witness for C5: after a concrete initial refresh that reported
CHANGED|PRESENT (0x22) for reader "A", the stored word is 0x20 and its
CHANGED bit is clear. -/
theorem reachable_store_changed_bit_clear_witness :
    ("A", ReaderInfo.mk 0x20 []).2.lastState &&& SCARD_STATE_CHANGED = 0 :=
  reachable_store_changed_bit_clear
    (ListReadersOutcome.mk ScardResult.sSuccess 4 ScardResult.sSuccess
      ["A"] ScardResult.sSuccess [(0x22, [])])
    [] ("A", ReaderInfo.mk 0x20 []) (by decide)

/-! ## Startup attach events (C8) -/

/-- The event is a reader-attached event for reader `r`. -/
def isAttachFor (r : String) (e : Event) : Prop :=
  e.eventType = "reader-attached" ∧ e.readerName = r

/-- The event is a card-inserted or card-removed event for reader `r`. -/
def isCardEventFor (r : String) (e : Event) : Prop :=
  (e.eventType = "card-inserted" ∨ e.eventType = "card-removed") ∧ e.readerName = r

/-- Number of reader-attached events for reader `r` in a trace. -/
def countAttachFor (r : String) (evs : List Event) : Nat :=
  evs.countP (fun e => e.eventType == "reader-attached" && e.readerName == r)

/-- In a duplicate-free list, an element occurs exactly once. -/
lemma countP_beq_eq_one {l : List String} {r : String}
    (hnodup : l.Nodup) (hr : r ∈ l) :
    l.countP (fun x => x == r) = 1 := by
  induction l with
  | nil => simp at hr
  | cons a l ih =>
    rw [List.countP_cons]
    rcases List.mem_cons.mp hr with h1 | h1
    · have hnotin : r ∉ l := by
        rw [h1]
        exact (List.nodup_cons.mp hnodup).1
      have hz : l.countP (fun x => x == r) = 0 := by
        rw [List.countP_eq_zero]
        intro x hx
        simp only [beq_iff_eq]
        intro hxr
        exact hnotin (hxr ▸ hx)
      rw [hz]
      simp [h1]
    · have hane : a ≠ r := by
        intro hc
        exact (List.nodup_cons.mp hnodup).1 (hc ▸ h1)
      rw [ih (List.nodup_cons.mp hnodup).2 h1]
      simp [hane]

/-- C8: starting the monitor with pre-existing readers (a duplicate-free
initial enumeration) emits exactly one reader-attached event per stored
reader in the startup segment, the startup segment consists solely of
reader-attached events, and in the whole MonitorLoop trace every
card-inserted/card-removed event for a pre-existing reader is preceded
by a reader-attached event for that reader. -/
theorem startup_attach_before_card_events (o : ListReadersOutcome)
    (steps : List IterationInputs) (r : String)
    (hnodup : ((UpdateReaderList [] o).map Prod.fst).Nodup)
    (hr : r ∈ (UpdateReaderList [] o).map Prod.fst) :
    countAttachFor r (startupAttachEvents (UpdateReaderList [] o)) = 1 ∧
    (∀ e ∈ startupAttachEvents (UpdateReaderList [] o),
      e.eventType = "reader-attached") ∧
    (∀ i, ∀ hi : i < (MonitorLoop o steps).length,
      isCardEventFor r ((MonitorLoop o steps)[i]) →
      ∃ j, ∃ hj : j < (MonitorLoop o steps).length, j < i ∧
        isAttachFor r ((MonitorLoop o steps)[j])) := by
  have htrace : MonitorLoop o steps =
      startupAttachEvents (UpdateReaderList [] o)
        ++ (runMonitorIterations (UpdateReaderList [] o) 0 steps).2 := rfl
  have hsa : ∀ e ∈ startupAttachEvents (UpdateReaderList [] o),
      e.eventType = "reader-attached" := by
    intro e he
    unfold startupAttachEvents at he
    rw [List.mem_map] at he
    obtain ⟨p, _, hpe⟩ := he
    rw [← hpe]
  refine ⟨?_, hsa, ?_⟩
  · unfold countAttachFor startupAttachEvents
    rw [List.countP_map]
    have hcong : (UpdateReaderList [] o).countP
        ((fun e : Event => e.eventType == "reader-attached" && e.readerName == r)
          ∘ (fun p : String × ReaderInfo =>
            Event.mk "reader-attached" p.1 p.2.lastState p.2.atr))
        = (UpdateReaderList [] o).countP
          ((fun x => x == r) ∘ Prod.fst) := by
      apply List.countP_congr
      intro q hq
      simp [Function.comp]
    rw [hcong, ← List.countP_map]
    exact countP_beq_eq_one hnodup hr
  · intro i hi hcard
    have hige : (startupAttachEvents (UpdateReaderList [] o)).length ≤ i := by
      by_contra hc
      push_neg at hc
      have heq : (MonitorLoop o steps)[i]?
          = (startupAttachEvents (UpdateReaderList [] o))[i]? := by
        rw [htrace]
        exact List.getElem?_append_left hc
      have h1 := List.getElem?_eq_getElem hi
      have h2 := List.getElem?_eq_getElem hc
      rw [h1, h2] at heq
      have h3 := Option.some.inj heq
      have h4 := hsa _ (List.getElem_mem hc)
      rw [← h3] at h4
      rcases hcard.1 with h5 | h5 <;> rw [h4] at h5 <;>
        exact absurd h5 (by decide)
    rw [List.mem_map] at hr
    obtain ⟨p, hp, hpr⟩ := hr
    have hattach : Event.mk "reader-attached" p.1 p.2.lastState p.2.atr
        ∈ startupAttachEvents (UpdateReaderList [] o) :=
      List.mem_map_of_mem _ hp
    obtain ⟨j, hj, hjeq⟩ := List.getElem_of_mem hattach
    have hjlt : j < (MonitorLoop o steps).length := by
      rw [htrace, List.length_append]
      omega
    have hjq : (MonitorLoop o steps)[j]?
        = some (Event.mk "reader-attached" p.1 p.2.lastState p.2.atr) := by
      rw [htrace, List.getElem?_append_left hj, List.getElem?_eq_getElem hj, hjeq]
    have hjval : (MonitorLoop o steps)[j]
        = Event.mk "reader-attached" p.1 p.2.lastState p.2.atr := by
      have h6 := List.getElem?_eq_getElem hjlt
      rw [h6] at hjq
      exact Option.some.inj hjq
    exact ⟨j, hjlt, by omega, by rw [hjval]; exact ⟨rfl, hpr⟩⟩

/-- Witness for C8: starting with two pre-existing readers "A" and "B",
the startup segment emits exactly one reader-attached event for "A". -/
theorem startup_attach_before_card_events_witness :
    countAttachFor "A" (startupAttachEvents (UpdateReaderList []
        (ListReadersOutcome.mk ScardResult.sSuccess 8 ScardResult.sSuccess
          ["A", "B"] ScardResult.sSuccess [(0x22, []), (0x12, [])]))) = 1 :=
  (startup_attach_before_card_events
    (ListReadersOutcome.mk ScardResult.sSuccess 8 ScardResult.sSuccess
      ["A", "B"] ScardResult.sSuccess [(0x22, []), (0x12, [])])
    [] "A" (by decide) (by decide)).1

end Smartcard
